import Mathlib

/-!
Verification of the Kubernetes workload-resolution engine of this
repository (`agent/src/managers/cache.rs`) against its specification.

The development shallowly embeds the cache manager's data model and the
operations the claims concern:

* `Workload`, `OwnerReference`, the per-kind ancestor stores;
* `get_controller_of_owner` — the ancestor lookup (cache.rs lines 93-183);
* `resolve_pod_descriptor`'s owner-walk loop and memoization
  (cache.rs lines 185-228), with the loop given an explicit fuel bound and
  an explicit count of `get_controller_of_owner` calls so that termination
  and lookup counts can be stated;
* the per-event bodies of `watching_pods`, `watching_nodes`, and
  `watching_services` (cache.rs lines 245-263, 284-300, 320-347), which
  update the `ip_to_workload` index.

Rust `HashMap`s become association lists with first-match lookup and
cons-style insert (last writer wins); `Option`/`Result` map to
`Option`/`Except`; the infallible `String: FromStr` parse used by the
service watcher is embedded with error type `Empty`.
-/

/-- Mirrors `struct Workload { name, namespace, kind }` (cache.rs 22-26). -/
structure Workload where
  name : String
  namespace? : String
  kind : String
deriving DecidableEq

/-- Mirrors `OwnerReference` from `k8s_openapi` restricted to the fields the
cache manager reads: `kind`, `name`, and `controller`. -/
structure OwnerReference where
  kind : String
  name : String
  controller : Option Bool
deriving DecidableEq

/-- The slice of an object's metadata the resolver reads from an ancestor
store: its owner references. -/
structure ObjMeta where
  owner_references : Option (List OwnerReference)
deriving DecidableEq

/-- A reflector store projected to what the resolver uses: an association
list from `(name, namespace)` to the stored object's metadata.  Mirrors
`Store<K>` reads through `ObjectRef::new(name).within(namespace)`. -/
abbrev KStore : Type := List ((String × String) × ObjMeta)

/-- `Store::get` on the association-list store: first entry whose key is
`(name, namespace)`. -/
def storeGet : KStore → String → String → Option ObjMeta
  | [], _, _ => none
  | ((n, s), m) :: rest, name, ns =>
      if n = name ∧ s = ns then some m else storeGet rest name ns

/-- The six ancestor stores `resolve_pod_descriptor` can consult
(cache.rs 33-38): ReplicaSet, Deployment, DaemonSet, StatefulSet, Job,
CronJob. -/
structure Stores where
  replicasets : KStore
  deployments : KStore
  daemonsets : KStore
  statefulsets : KStore
  jobs : KStore
  cronjobs : KStore

/-- `refs.iter().find(|r| r.controller == Some(true))` applied to an
optional list of owner references, as done both on the pod itself
(cache.rs 204-209) and on every ancestor (cache.rs 108 etc.). -/
def findController : Option (List OwnerReference) → Option OwnerReference
  | none => none
  | some refs => refs.find? (fun r => r.controller == some true)

/-- `CacheManager::get_controller_of_owner` (cache.rs 93-183): dispatch on
`owner_ref.kind`, look the owner up in the matching store under
`(owner_ref.name, namespace)`, and on a hit return the owner's own
controller owner reference; a store miss or an unknown kind yields `none`. -/
def get_controller_of_owner (self : Stores) (owner_ref : OwnerReference)
    (ns : String) : Option OwnerReference :=
  if owner_ref.kind = "ReplicaSet" then
    match storeGet self.replicasets owner_ref.name ns with
    | some rs => findController rs.owner_references
    | none => none
  else if owner_ref.kind = "Deployment" then
    match storeGet self.deployments owner_ref.name ns with
    | none => none
    | some deployment => findController deployment.owner_references
  else if owner_ref.kind = "DaemonSet" then
    match storeGet self.daemonsets owner_ref.name ns with
    | none => none
    | some daemonset => findController daemonset.owner_references
  else if owner_ref.kind = "StatefulSet" then
    match storeGet self.statefulsets owner_ref.name ns with
    | none => none
    | some statefulset => findController statefulset.owner_references
  else if owner_ref.kind = "Job" then
    match storeGet self.jobs owner_ref.name ns with
    | none => none
    | some job => findController job.owner_references
  else if owner_ref.kind = "CronJob" then
    match storeGet self.cronjobs owner_ref.name ns with
    | none => none
    | some cronjob => findController cronjob.owner_references
  else none

/-- The owner-walk loop of `resolve_pod_descriptor` (cache.rs 211-218):

    while let Some(owner) = owner_ref {
        let controller = self.get_controller_of_owner(owner, &*namespace).await;
        if let Some(ref controller) = controller {
            name = controller.name.clone();
            kind = controller.kind.clone();
        }
        owner_ref = controller;
    }

The Rust loop is unbounded; here it carries an explicit fuel parameter and
returns `none` when the fuel runs out before the loop condition fails.  A
`some (name, kind, c)` result means the loop finished, left `(name, kind)`
in the mutable locals, and made exactly `c` calls to
`get_controller_of_owner`. -/
def resolveLoop (st : Stores) (ns : String) :
    Nat → String → String → Option OwnerReference →
    Option (String × String × Nat)
  | _, name, kind, none => some (name, kind, 0)
  | 0, _, _, some _ => none
  | Nat.succ fuel, name, kind, some owner =>
      match get_controller_of_owner st owner ns with
      | some c =>
          (resolveLoop st ns fuel c.name c.kind (some c)).map
            (fun r => (r.1, r.2.1, r.2.2 + 1))
      | none => some (name, kind, 1)

/-- A pod envelope restricted to what `resolve_pod_descriptor` and
`watching_pods` read. -/
structure PodIP where
  ip : Option String
deriving DecidableEq

structure PodStatus where
  pod_ips : Option (List PodIP)
deriving DecidableEq

structure Pod where
  name : Option String
  uid : Option String
  namespace? : Option String
  owner_references : Option (List OwnerReference)
  status : Option PodStatus
deriving DecidableEq

/-- `ResourceExt::name_any`: the object's name, falling back to its uid,
then to the empty string. -/
def Pod.name_any (p : Pod) : String := (p.name.getD (p.uid.getD ""))

/-- `ObjectRef::from_obj(pod)` projected to the key the memoization map
distinguishes: the pod's name and namespace. -/
def podRef (p : Pod) : String × Option String := (p.name_any, p.namespace?)

/-- The `pod_descriptors` memoization map, `Cache<ObjectRef<Pod>, Workload>`
(cache.rs 39): association list with first-match lookup. -/
abbrev Memo : Type := List ((String × Option String) × Workload)

def memoGet : Memo → (String × Option String) → Option Workload
  | [], _ => none
  | (k, v) :: rest, key => if k = key then some v else memoGet rest key

/-- `HashMap::insert`: the new binding shadows any old one under
first-match lookup. -/
def memoInsert (m : Memo) (k : String × Option String) (v : Workload) :
    Memo := (k, v) :: m

/-- `CacheManager::resolve_pod_descriptor` (cache.rs 185-228).  The cached
entry is returned unchanged on a memo hit; otherwise the locals are seeded
with the pod's name, namespace and kind `"Pod"`, the owner walk runs, and
the result is unconditionally inserted into the memo map.  `none` is
returned only when the walk's fuel runs out (the Rust loop would still be
running). -/
def resolve_pod_descriptor (st : Stores) (fuel : Nat)
    (pod_descriptors : Memo) (pod : Pod) : Option (Workload × Memo) :=
  match memoGet pod_descriptors (podRef pod) with
  | some entry => some (entry, pod_descriptors)
  | none =>
      let name := pod.name_any
      let ns := pod.namespace?.getD ""
      let kind := "Pod"
      let owner_ref := findController pod.owner_references
      match resolveLoop st ns fuel name kind owner_ref with
      | none => none
      | some (n, k, _) =>
          let entry : Workload := ⟨n, ns, k⟩
          some (entry, memoInsert pod_descriptors (podRef pod) entry)

/-- The `ip_to_workload` index, `Cache<String, Workload>` (cache.rs 40). -/
abbrev IpMap : Type := List (String × Workload)

def ipGet : IpMap → String → Option Workload
  | [], _ => none
  | (k, v) :: rest, key => if k = key then some v else ipGet rest key

/-- `HashMap::insert` on the IP index: last writer wins under first-match
lookup. -/
def ipInsert (m : IpMap) (k : String) (v : Workload) : IpMap := (k, v) :: m

/-- The mutable state the three IP-bearing watchers share: the memoization
map `pod_descriptors` and the index `ip_to_workload` (cache.rs 39-40). -/
structure CState where
  pod_descriptors : Memo
  ip_to_workload : IpMap
deriving DecidableEq

/-- `lookup_ip`: the consumer-facing read of the `ip_to_workload` index. -/
def lookup_ip (s : CState) (ip : String) : Option Workload :=
  ipGet s.ip_to_workload ip

/-- The `for ip in pod_ips` loop of `watching_pods` (cache.rs 250-260):
each entry with a present `ip` field is inserted verbatim, mapped to the
resolved workload `entry`; an absent `ip` field is skipped (with a debug
log). -/
def podIpFold (entry : Workload) : IpMap → List PodIP → IpMap
  | m, [] => m
  | m, pip :: rest =>
      match pip.ip with
      | some ip => podIpFold entry (ipInsert m ip entry) rest
      | none => podIpFold entry m rest

/-- The body of the `watching_pods` event loop for one streamed pod
(cache.rs 245-263): resolve the pod's workload, then run the IP loop over
`status.pod_ips` when present.  `none` only when the resolver's fuel ran
out. -/
def applyPodEvent (st : Stores) (fuel : Nat) (s : CState) (pod : Pod) :
    Option CState :=
  match resolve_pod_descriptor st fuel s.pod_descriptors pod with
  | none => none
  | some (entry, memo) =>
      let ips :=
        match pod.status with
        | none => s.ip_to_workload
        | some status =>
            match status.pod_ips with
            | none => s.ip_to_workload
            | some pod_ips => podIpFold entry s.ip_to_workload pod_ips
      some { pod_descriptors := memo, ip_to_workload := ips }

/-- A node envelope restricted to what `watching_nodes` reads. -/
structure NodeAddress where
  address : String
deriving DecidableEq

structure NodeStatus where
  addresses : Option (List NodeAddress)
deriving DecidableEq

structure Node where
  name : Option String
  uid : Option String
  status : Option NodeStatus
deriving DecidableEq

def Node.name_any (n : Node) : String := (n.name.getD (n.uid.getD ""))

/-- The `for addr in addresses` loop of `watching_nodes` (cache.rs
288-297): every address string is inserted verbatim, mapped to the node's
workload `w` (each iteration allocates `Workload { name: node.name_any(),
namespace: "node", kind: "Node" }`, the same value every time). -/
def nodeAddrFold (w : Workload) : IpMap → List NodeAddress → IpMap
  | m, [] => m
  | m, addr :: rest => nodeAddrFold w (ipInsert m addr.address w) rest

/-- The body of the `watching_nodes` event loop for one streamed node
(cache.rs 284-300). -/
def applyNodeEvent (s : CState) (node : Node) : CState :=
  match node.status with
  | none => s
  | some status =>
      match status.addresses with
      | none => s
      | some addresses =>
          { s with ip_to_workload :=
              (nodeAddrFold ⟨node.name_any, "node", "Node"⟩
                s.ip_to_workload addresses) }

/-- A service envelope restricted to what `watching_services` reads. -/
structure ServiceSpec where
  cluster_ips : Option (List String)
deriving DecidableEq

structure Service where
  name : Option String
  uid : Option String
  namespace? : Option String
  spec : Option ServiceSpec
deriving DecidableEq

def Service.name_any (s : Service) : String := (s.name.getD (s.uid.getD ""))

/-- The workload a service event associates with each of its cluster IPs
(cache.rs 332-336). -/
def serviceWorkload (service : Service) : Workload :=
  ⟨service.name_any, service.namespace?.getD "", "Service"⟩

/-- `ip_str.clone().parse()` in `watching_services` (cache.rs 325).  The
target type is inferred as `String` (the insert's key type), whose
`FromStr` implementation is the identity with error type `Infallible`;
the error type is therefore embedded as `Empty`. -/
def string_from_str (s : String) : Except Empty String := Except.ok s

/-- The `for ip_str in cluster_ips` loop of `watching_services` (cache.rs
324-344): each entry is parsed (at type `String`, so the parse succeeds
with the string itself; the `Err` branch is uninhabited), the literal
`"None"` is skipped, and every other string is inserted verbatim, mapped
to the service's workload `w`. -/
def serviceIpFold (w : Workload) : IpMap → List String → IpMap
  | m, [] => m
  | m, ip_str :: rest =>
      match string_from_str ip_str with
      | Except.ok ip =>
          if ip = "None" then serviceIpFold w m rest
          else serviceIpFold w (ipInsert m ip w) rest
      | Except.error e => e.elim

/-- The body of the `watching_services` event loop for one streamed service
(cache.rs 320-347). -/
def applyServiceEvent (s : CState) (service : Service) : CState :=
  match service.spec with
  | none => s
  | some spec =>
      match spec.cluster_ips with
      | none => s
      | some cluster_ips =>
          { s with ip_to_workload :=
              (serviceIpFold (serviceWorkload service)
                s.ip_to_workload cluster_ips) }

/-- One item of a pod watch stream before `applied_objects()`. -/
inductive PodWatchItem where
  | applied (pod : Pod)
  | deleted (pod : Pod)

/-- `applied_objects()` from kube-runtime, as used at cache.rs 241: the
watch stream is flattened to the objects of apply/init-apply events, and
delete events yield no stream item, so the `while let` body never sees
them. -/
def appliedObjects : PodWatchItem → Option Pod
  | PodWatchItem.applied pod => some pod
  | PodWatchItem.deleted _ => none

/-- One step of the `watching_pods` loop on a raw watch item: the body runs
only when `applied_objects()` yields the pod; a delete event leaves the
caches untouched. -/
def podWatchStep (st : Stores) (fuel : Nat) (s : CState)
    (item : PodWatchItem) : Option CState :=
  match appliedObjects item with
  | some pod => applyPodEvent st fuel s pod
  | none => some s

/-- The `watching_pods` loop over a finite prefix of the watch stream. -/
def runPodWatch (st : Stores) (fuel : Nat) :
    CState → List PodWatchItem → Option CState
  | s, [] => some s
  | s, item :: rest =>
      match podWatchStep st fuel s item with
      | none => none
      | some s2 => runPodWatch st fuel s2 rest

/-! ### Concrete fixtures used by the claim theorems -/

/-- Stores with every ancestor store empty. -/
def emptyStores : Stores := ⟨[], [], [], [], [], []⟩

/-- A state with both caches empty, as after `CacheManager::new`. -/
def emptyCState : CState := ⟨[], []⟩

/-- A ReplicaSet chain of depth 10 in namespace `"x"`: `rs0` is controlled
by `rs1`, ... `rs8` by `rs9`, and `rs9` has no owner references. -/
def chainStores : Stores :=
  { replicasets :=
      [(("rs0", "x"), ⟨some [⟨"ReplicaSet", "rs1", some true⟩]⟩),
       (("rs1", "x"), ⟨some [⟨"ReplicaSet", "rs2", some true⟩]⟩),
       (("rs2", "x"), ⟨some [⟨"ReplicaSet", "rs3", some true⟩]⟩),
       (("rs3", "x"), ⟨some [⟨"ReplicaSet", "rs4", some true⟩]⟩),
       (("rs4", "x"), ⟨some [⟨"ReplicaSet", "rs5", some true⟩]⟩),
       (("rs5", "x"), ⟨some [⟨"ReplicaSet", "rs6", some true⟩]⟩),
       (("rs6", "x"), ⟨some [⟨"ReplicaSet", "rs7", some true⟩]⟩),
       (("rs7", "x"), ⟨some [⟨"ReplicaSet", "rs8", some true⟩]⟩),
       (("rs8", "x"), ⟨some [⟨"ReplicaSet", "rs9", some true⟩]⟩),
       (("rs9", "x"), ⟨none⟩)],
    deployments := [], daemonsets := [], statefulsets := [],
    jobs := [], cronjobs := [] }

/-- A pod in namespace `"x"` whose controller owner reference is `rs0`,
the bottom of the depth-10 chain. -/
def chainPod : Pod :=
  { name := some "p", uid := none, namespace? := some "x",
    owner_references := some [⟨"ReplicaSet", "rs0", some true⟩],
    status := none }

/-- Stores holding exactly one DaemonSet, `ds` in namespace `"d"`, which
has no owner references of its own. -/
def daemonsetStores : Stores :=
  { replicasets := [], deployments := [],
    daemonsets := [(("ds", "d"), ⟨none⟩)],
    statefulsets := [], jobs := [], cronjobs := [] }

/-- A pod owned directly by the DaemonSet `ds`. -/
def daemonsetPod : Pod :=
  { name := some "p", uid := none, namespace? := some "d",
    owner_references := some [⟨"DaemonSet", "ds", some true⟩],
    status := none }

/-- A pod whose controller owner reference names a ReplicaSet that is in
no store. -/
def orphanPod : Pod :=
  { name := some "p3", uid := none, namespace? := some "prod",
    owner_references := some [⟨"ReplicaSet", "web-abc", some true⟩],
    status := none }

/-- An owner-less pod with pod IP `10.0.0.5`. -/
def ipPod : Pod :=
  { name := some "c4p", uid := none, namespace? := some "prod",
    owner_references := none,
    status := some ⟨some [⟨some "10.0.0.5"⟩]⟩ }

/-- The spec's Deployment-rollout scenario stores: Deployment `web` in
`prod` and ReplicaSet `web-abc` controlled by `web`. -/
def rolloutStores : Stores :=
  { replicasets :=
      [(("web-abc", "prod"), ⟨some [⟨"Deployment", "web", some true⟩]⟩)],
    deployments := [(("web", "prod"), ⟨none⟩)],
    daemonsets := [], statefulsets := [], jobs := [], cronjobs := [] }

/-- Pod `web-abc-1` controlled by ReplicaSet `web-abc`, with pod IP
`10.0.0.5`. -/
def rolloutPod : Pod :=
  { name := some "web-abc-1", uid := none, namespace? := some "prod",
    owner_references := some [⟨"ReplicaSet", "web-abc", some true⟩],
    status := some ⟨some [⟨some "10.0.0.5"⟩]⟩ }

/-- An owner-less pod whose reported pod IP is the literal string
`"None"`. -/
def nonePod : Pod :=
  { name := some "c8p", uid := none, namespace? := some "d",
    owner_references := none,
    status := some ⟨some [⟨some "None"⟩]⟩ }

/-- An owner-less pod whose reported pod IP is a string that is neither an
IPv4 nor an IPv6 address. -/
def badIpPod : Pod :=
  { name := some "c9p", uid := none, namespace? := some "d",
    owner_references := none,
    status := some ⟨some [⟨some "not-an-ip"⟩]⟩ }

/-- An owner-less pod used to seed the memoization cache in witnesses. -/
def memoPod : Pod :=
  { name := some "m", uid := none, namespace? := some "d",
    owner_references := none, status := none }

/-- A node named `worker-1` reporting the single address `192.168.1.7`. -/
def workerNode : Node :=
  { name := some "worker-1", uid := none,
    status := some ⟨some [⟨"192.168.1.7"⟩]⟩ }

/-- Service `api` in `prod` with `clusterIPs = ["10.1.0.10", "None"]`. -/
def apiService : Service :=
  { name := some "api", uid := none, namespace? := some "prod",
    spec := some ⟨some ["10.1.0.10", "None"]⟩ }

/-! ### Map and fold lemmas -/

theorem ipGet_insert_self (m : IpMap) (k : String) (v : Workload) :
    ipGet (ipInsert m k v) k = some v := by
  simp [ipInsert, ipGet]

theorem ipGet_insert_ne (m : IpMap) (k2 k : String) (v : Workload)
    (h : k2 ≠ k) : ipGet (ipInsert m k2 v) k = ipGet m k := by
  simp [ipInsert, ipGet, h]

theorem memoGet_insert_self (m : Memo) (k : String × Option String)
    (v : Workload) : memoGet (memoInsert m k v) k = some v := by
  simp [memoInsert, memoGet]

theorem memoGet_insert_ne (m : Memo) (k2 k : String × Option String)
    (v : Workload) (h : k2 ≠ k) :
    memoGet (memoInsert m k2 v) k = memoGet m k := by
  simp [memoInsert, memoGet, h]

/-- With no owner reference left the loop body never runs, whatever the
fuel: the seed is returned after zero lookups. -/
theorem resolveLoop_none (st : Stores) (ns : String) (fuel : Nat)
    (name kind : String) :
    resolveLoop st ns fuel name kind none = some (name, kind, 0) := by
  cases fuel <;> simp [resolveLoop]

/-- Inserting during `podIpFold` never destroys a binding to the same
workload that every iteration inserts. -/
theorem podIpFold_preserves (entry : Workload) :
    ∀ (l : List PodIP) (m : IpMap) (key : String),
      ipGet m key = some entry →
      ipGet (podIpFold entry m l) key = some entry := by
  intro l
  induction l with
  | nil => intro m key h; simpa [podIpFold] using h
  | cons pip rest ih =>
    intro m key h
    cases hip : pip.ip with
    | none => simp only [podIpFold, hip]; exact ih m key h
    | some ip =>
      simp only [podIpFold, hip]
      apply ih
      by_cases hk : ip = key
      · subst hk; exact ipGet_insert_self m ip entry
      · rw [ipGet_insert_ne m ip key entry hk]; exact h

/-- Every pod IP present in the list ends up bound to the resolved
workload. -/
theorem podIpFold_mem (entry : Workload) :
    ∀ (l : List PodIP) (m : IpMap) (ip : String),
      PodIP.mk (some ip) ∈ l →
      ipGet (podIpFold entry m l) ip = some entry := by
  intro l
  induction l with
  | nil => intro m ip h; cases h
  | cons pip rest ih =>
    intro m ip h
    rcases List.mem_cons.mp h with heq | htl
    · have hip : pip.ip = some ip := by rw [← heq]
      simp only [podIpFold, hip]
      exact podIpFold_preserves entry rest _ ip (ipGet_insert_self m ip entry)
    · cases hip : pip.ip with
      | none => simp only [podIpFold, hip]; exact ih m ip htl
      | some ip2 => simp only [podIpFold, hip]; exact ih _ ip htl

theorem nodeAddrFold_preserves (w : Workload) :
    ∀ (l : List NodeAddress) (m : IpMap) (key : String),
      ipGet m key = some w → ipGet (nodeAddrFold w m l) key = some w := by
  intro l
  induction l with
  | nil => intro m key h; simpa [nodeAddrFold] using h
  | cons addr rest ih =>
    intro m key h
    simp only [nodeAddrFold]
    apply ih
    by_cases hk : addr.address = key
    · subst hk; exact ipGet_insert_self m addr.address w
    · rw [ipGet_insert_ne m addr.address key w hk]; exact h

/-- Every node address in the list ends up bound to the node workload. -/
theorem nodeAddrFold_mem (w : Workload) :
    ∀ (l : List NodeAddress) (m : IpMap) (a : NodeAddress),
      a ∈ l → ipGet (nodeAddrFold w m l) a.address = some w := by
  intro l
  induction l with
  | nil => intro m a h; cases h
  | cons addr rest ih =>
    intro m a h
    rcases List.mem_cons.mp h with heq | htl
    · subst heq
      simp only [nodeAddrFold]
      exact nodeAddrFold_preserves w rest _ a.address
        (ipGet_insert_self m a.address w)
    · simp only [nodeAddrFold]; exact ih _ a htl

theorem serviceIpFold_preserves (w : Workload) :
    ∀ (l : List String) (m : IpMap) (key : String),
      ipGet m key = some w → ipGet (serviceIpFold w m l) key = some w := by
  intro l
  induction l with
  | nil => intro m key h; simpa [serviceIpFold] using h
  | cons ip_str rest ih =>
    intro m key h
    by_cases hn : ip_str = "None"
    · simp only [serviceIpFold, string_from_str, hn, if_pos]
      exact ih m key h
    · simp only [serviceIpFold, string_from_str, if_neg hn]
      apply ih
      by_cases hk : ip_str = key
      · subst hk; exact ipGet_insert_self m ip_str w
      · rw [ipGet_insert_ne m ip_str key w hk]; exact h

/-- Every cluster IP other than the literal `"None"` ends up bound to the
service workload. -/
theorem serviceIpFold_mem (w : Workload) :
    ∀ (l : List String) (m : IpMap) (ip : String),
      ip ∈ l → ip ≠ "None" → ipGet (serviceIpFold w m l) ip = some w := by
  intro l
  induction l with
  | nil => intro m ip h _; cases h
  | cons ip_str rest ih =>
    intro m ip h hne
    rcases List.mem_cons.mp h with heq | htl
    · subst heq
      simp only [serviceIpFold, string_from_str, if_neg hne]
      exact serviceIpFold_preserves w rest _ ip (ipGet_insert_self m ip w)
    · by_cases hn : ip_str = "None"
      · simp only [serviceIpFold, string_from_str, hn, if_pos]
        exact ih m ip htl hne
      · simp only [serviceIpFold, string_from_str, if_neg hn]
        exact ih _ ip htl hne

/-- The service IP loop never touches the binding of the key `"None"`. -/
theorem serviceIpFold_no_none (w : Workload) :
    ∀ (l : List String) (m : IpMap),
      ipGet (serviceIpFold w m l) "None" = ipGet m "None" := by
  intro l
  induction l with
  | nil => intro m; simp [serviceIpFold]
  | cons ip_str rest ih =>
    intro m
    by_cases hn : ip_str = "None"
    · simp only [serviceIpFold, string_from_str, hn, if_pos]
      exact ih m
    · simp only [serviceIpFold, string_from_str, if_neg hn]
      rw [ih, ipGet_insert_ne m ip_str "None" w hn]

/-! ### Resolver and event lemmas -/

/-- A successful resolution only extends the memoization map: every
binding present before is present, unchanged, afterwards. -/
theorem resolve_memo_extends (st : Stores) (fuel : Nat) (memo : Memo)
    (pod : Pod) (w : Workload) (memo2 : Memo)
    (h : resolve_pod_descriptor st fuel memo pod = some (w, memo2)) :
    ∀ k v, memoGet memo k = some v → memoGet memo2 k = some v := by
  intro k v hkv
  unfold resolve_pod_descriptor at h
  cases hm : memoGet memo (podRef pod) with
  | some entry =>
    rw [hm] at h
    injection h with h1
    injection h1 with _ h2
    rw [← h2]; exact hkv
  | none =>
    rw [hm] at h
    simp only at h
    cases hl : resolveLoop st (pod.namespace?.getD "") fuel pod.name_any
        "Pod" (findController pod.owner_references) with
    | none => rw [hl] at h; cases h
    | some r =>
      obtain ⟨n, k2, c⟩ := r
      rw [hl] at h
      simp only at h
      injection h with h1
      injection h1 with _ h2
      rw [← h2]
      have hkne : podRef pod ≠ k := by
        intro he; rw [he] at hm; rw [hm] at hkv; cases hkv
      rw [memoGet_insert_ne memo (podRef pod) k _ hkne]
      exact hkv

/-- A pod event that goes through keeps every existing memoization
binding. -/
theorem applyPod_memo_pres (st : Stores) (fuel : Nat) (s : CState)
    (p2 : Pod) (s2 : CState) (h : applyPodEvent st fuel s p2 = some s2)
    (k : String × Option String) (v : Workload)
    (hk : memoGet s.pod_descriptors k = some v) :
    memoGet s2.pod_descriptors k = some v := by
  unfold applyPodEvent at h
  cases hr : resolve_pod_descriptor st fuel s.pod_descriptors p2 with
  | none => rw [hr] at h; cases h
  | some r =>
    obtain ⟨entry, memo⟩ := r
    rw [hr] at h
    simp only at h
    injection h with h1
    rw [← h1]
    exact resolve_memo_extends st fuel s.pod_descriptors p2 entry memo hr
      k v hk

/-- Node events never touch the memoization map. -/
theorem applyNode_memo (s : CState) (node : Node) :
    (applyNodeEvent s node).pod_descriptors = s.pod_descriptors := by
  cases hst : node.status with
  | none => simp [applyNodeEvent, hst]
  | some status =>
    cases haddr : status.addresses with
    | none => simp [applyNodeEvent, hst, haddr]
    | some addresses => simp [applyNodeEvent, hst, haddr]

/-- Service events never touch the memoization map. -/
theorem applyService_memo (s : CState) (svc : Service) :
    (applyServiceEvent s svc).pod_descriptors = s.pod_descriptors := by
  cases hsp : svc.spec with
  | none => simp [applyServiceEvent, hsp]
  | some spec =>
    cases hips : spec.cluster_ips with
    | none => simp [applyServiceEvent, hsp, hips]
    | some cluster_ips => simp [applyServiceEvent, hsp, hips]

/-- After a pod event, every reported pod IP string is a key of the
index. -/
theorem applyPod_ip_present (st : Stores) (fuel : Nat) (s : CState)
    (p : Pod) (s2 : CState) (status : PodStatus) (pips : List PodIP)
    (ip : String)
    (h : applyPodEvent st fuel s p = some s2)
    (hst : p.status = some status)
    (hips : status.pod_ips = some pips)
    (hmem : PodIP.mk (some ip) ∈ pips) :
    ∃ w, lookup_ip s2 ip = some w := by
  unfold applyPodEvent at h
  cases hr : resolve_pod_descriptor st fuel s.pod_descriptors p with
  | none => rw [hr] at h; cases h
  | some r =>
    obtain ⟨entry, memo⟩ := r
    rw [hr] at h
    simp only [hst, hips] at h
    refine ⟨entry, ?_⟩
    injection h with h1
    unfold lookup_ip
    rw [← h1]
    exact podIpFold_mem entry pips s.ip_to_workload ip hmem

/-- After a node event, every reported address string maps to the node's
workload. -/
theorem applyNode_ip (s : CState) (node : Node) (status : NodeStatus)
    (addrs : List NodeAddress) (a : NodeAddress)
    (hst : node.status = some status)
    (haddr : status.addresses = some addrs)
    (hmem : a ∈ addrs) :
    lookup_ip (applyNodeEvent s node) a.address
      = some ⟨node.name_any, "node", "Node"⟩ := by
  unfold lookup_ip
  simp only [applyNodeEvent, hst, haddr]
  exact nodeAddrFold_mem _ addrs s.ip_to_workload a hmem

/-- After a service event, every cluster IP string other than `"None"`
maps to the service's workload. -/
theorem applyService_ip (s : CState) (svc : Service) (spec : ServiceSpec)
    (ips : List String) (ip : String)
    (hsp : svc.spec = some spec)
    (hips : spec.cluster_ips = some ips)
    (hmem : ip ∈ ips) (hne : ip ≠ "None") :
    lookup_ip (applyServiceEvent s svc) ip = some (serviceWorkload svc) := by
  unfold lookup_ip
  simp only [applyServiceEvent, hsp, hips]
  exact serviceIpFold_mem _ ips s.ip_to_workload ip hmem hne

/-! ### Claim theorems -/

/-- Claim C1, counterexample.  The claim says resolution performs at most
`MAX_DEPTH = 8` ancestor store lookups for every pod envelope.  On the
depth-10 ReplicaSet chain, resolution is still inside the loop after 8
`get_controller_of_owner` calls (the fuel-8 run returns `none`), and the
loop in fact needs exactly 10 lookups, after which it returns the deepest
ancestor `rs9` — there is no depth bound in the code. -/
theorem resolution_exceeds_eight_lookups :
    resolve_pod_descriptor chainStores 8 [] chainPod = none
    ∧ resolveLoop chainStores "x" 100 "p" "Pod"
        (findController chainPod.owner_references)
        = some ("rs9", "ReplicaSet", 10)
    ∧ ¬ (10 ≤ 8) := by
  refine ⟨by decide, by decide, by decide⟩

/-- Claim C1, amended.  The owner walk of `resolve_pod_descriptor`
performs one `get_controller_of_owner` call per iteration and has no depth
bound (no `MAX_DEPTH` exists in the code): once the loop finishes within
some number of lookups, its outcome — the last successfully identified
ancestor together with the exact lookup count — is definite, unchanged
under any larger lookup allowance. -/
theorem resolveLoop_fuel_definite (st : Stores) (ns : String) :
    ∀ fuel fuel2 name kind o (r : String × String × Nat),
      resolveLoop st ns fuel name kind o = some r → fuel ≤ fuel2 →
      resolveLoop st ns fuel2 name kind o = some r := by
  intro fuel
  induction fuel with
  | zero =>
    intro fuel2 name kind o r h _
    cases o with
    | none => rw [resolveLoop_none] at h; rw [resolveLoop_none]; exact h
    | some owner => simp [resolveLoop] at h
  | succ fuel ih =>
    intro fuel2 name kind o r h hle
    cases o with
    | none => rw [resolveLoop_none] at h; rw [resolveLoop_none]; exact h
    | some owner =>
      cases fuel2 with
      | zero => omega
      | succ fuel2 =>
        have hle2 : fuel ≤ fuel2 := by omega
        simp only [resolveLoop] at h ⊢
        cases hc : get_controller_of_owner st owner ns with
        | some c =>
          simp only [hc] at h ⊢
          rw [Option.map_eq_some'] at h
          obtain ⟨r0, h0, hr⟩ := h
          rw [ih fuel2 c.name c.kind (some c) r0 h0 hle2]
          simp [hr]
        | none =>
          simp only [hc] at h ⊢
          exact h

theorem resolveLoop_fuel_definite_witness :
    resolveLoop chainStores "x" 12 "p" "Pod"
      (some ⟨"ReplicaSet", "rs0", some true⟩)
      = some ("rs9", "ReplicaSet", 10) :=
  resolveLoop_fuel_definite chainStores "x" 10 12 "p" "Pod"
    (some ⟨"ReplicaSet", "rs0", some true⟩) ("rs9", "ReplicaSet", 10)
    (by decide) (by decide)

/-- Claim C2.  A pod owned directly by a DaemonSet that is present in its
store and has no controller owner reference of its own resolves to the
pod's own name and kind `"Pod"`, not to the DaemonSet: the loop only ever
copies `(name, kind)` from `get_controller_of_owner`'s result — the owner
of the owner — and never from the direct owner itself, so the identity of
an outermost controller that owns the pod directly is lost. -/
theorem daemonset_pod_resolution_result :
    storeGet daemonsetStores.daemonsets "ds" "d" = some ⟨none⟩
    ∧ (resolve_pod_descriptor daemonsetStores 8 [] daemonsetPod).map
        (fun r => r.1) = some ⟨"p", "d", "Pod"⟩
    ∧ (⟨"p", "d", "Pod"⟩ : Workload) ≠ ⟨"ds", "d", "DaemonSet"⟩ := by
  refine ⟨by decide, by decide, by decide⟩

/-- Claim C3, counterexample.  The claim says that when the owner chain
reaches an ancestor missing from its store, the memoization step is
skipped.  For the pod whose controlling ReplicaSet `web-abc` is in no
store, resolution returns the bare-pod answer and nevertheless writes it
into the memoization map. -/
theorem missing_ancestor_still_memoizes :
    storeGet emptyStores.replicasets "web-abc" "prod" = none
    ∧ (resolve_pod_descriptor emptyStores 8 [] orphanPod).map
        (fun r => memoGet r.2 (podRef orphanPod))
        = some (some ⟨"p3", "prod", "Pod"⟩) := by
  refine ⟨by decide, by decide⟩

/-- Claim C3, amended.  Resolution memoizes unconditionally: whenever a
pod misses the memoization map and the owner walk finishes — including
when it stopped because an ancestor was absent from its store — the
returned workload is written under the pod's key, so the next event for
the same pod returns this cached value instead of retrying resolution. -/
theorem resolve_always_memoizes (st : Stores) (fuel : Nat) (memo : Memo)
    (pod : Pod) (entry : Workload) (memo2 : Memo)
    (hmiss : memoGet memo (podRef pod) = none)
    (h : resolve_pod_descriptor st fuel memo pod = some (entry, memo2)) :
    memoGet memo2 (podRef pod) = some entry := by
  unfold resolve_pod_descriptor at h
  rw [hmiss] at h
  simp only at h
  cases hl : resolveLoop st (pod.namespace?.getD "") fuel pod.name_any
      "Pod" (findController pod.owner_references) with
  | none => rw [hl] at h; cases h
  | some r =>
    obtain ⟨n, k2, c⟩ := r
    rw [hl] at h
    simp only at h
    injection h with h1
    injection h1 with he h2
    rw [← h2, ← he]
    exact memoGet_insert_self memo (podRef pod) _

theorem resolve_always_memoizes_witness :
    memoGet (memoInsert [] (podRef orphanPod) ⟨"p3", "prod", "Pod"⟩)
      (podRef orphanPod) = some ⟨"p3", "prod", "Pod"⟩ :=
  resolve_always_memoizes emptyStores 8 [] orphanPod ⟨"p3", "prod", "Pod"⟩
    (memoInsert [] (podRef orphanPod) ⟨"p3", "prod", "Pod"⟩)
    (by decide) (by decide)

/-- Claim C4.  The claim says a deletion event removes every IP the object
contributed.  In the code, deletion events never reach the IP pipeline:
`applied_objects()` yields no stream item for them, and no code removes
entries from `ip_to_workload`.  Applying the pod with IP `10.0.0.5` and
then its deletion leaves `10.0.0.5` still mapped to the pod's workload,
with no distinct object having re-associated it. -/
theorem deleted_pod_ip_persists :
    (runPodWatch emptyStores 8 emptyCState
      [PodWatchItem.applied ipPod, PodWatchItem.deleted ipPod]).map
      (fun s => lookup_ip s "10.0.0.5")
      = some (some ⟨"c4p", "prod", "Pod"⟩) := by
  decide

/-- Claim C5.  The spec's Deployment-rollout scenario: with Deployment
`web` and ReplicaSet `web-abc` (controlled by `web`) preloaded in their
stores, applying the event for pod `web-abc-1` (controlled by `web-abc`,
pod IP `10.0.0.5`) makes `lookup_ip "10.0.0.5"` return the Workload with
name `web`, namespace `prod`, kind `Deployment`. -/
theorem deployment_rollout_lookup :
    (applyPodEvent rolloutStores 8 emptyCState rolloutPod).map
      (fun s => lookup_ip s "10.0.0.5")
      = some (some ⟨"web", "prod", "Deployment"⟩) := by
  decide

/-- Claim C6.  For a pod that is not yet memoized and has no owner
reference marked `controller = true`, resolution returns the seed as a
bare-pod workload: the pod's name, the pod's namespace, and kind
`"Pod"`. -/
theorem bare_pod_resolves_to_seed (st : Stores) (fuel : Nat) (memo : Memo)
    (p : Pod) (nm nsp : String)
    (hmiss : memoGet memo (podRef p) = none)
    (hown : findController p.owner_references = none)
    (hname : p.name = some nm)
    (hns : p.namespace? = some nsp) :
    resolve_pod_descriptor st fuel memo p
      = some (⟨nm, nsp, "Pod"⟩,
              memoInsert memo (podRef p) ⟨nm, nsp, "Pod"⟩) := by
  unfold resolve_pod_descriptor
  rw [hmiss]
  simp only [hown, Pod.name_any, hname, hns, Option.getD_some,
    resolveLoop_none]

theorem bare_pod_resolves_to_seed_witness :
    resolve_pod_descriptor emptyStores 3 [] memoPod
      = some (⟨"m", "d", "Pod"⟩,
              memoInsert [] (podRef memoPod) ⟨"m", "d", "Pod"⟩) :=
  bare_pod_resolves_to_seed emptyStores 3 [] memoPod "m" "d"
    (by decide) (by decide) (by decide) (by decide)

/-- Claim C7.  Once a pod's workload is memoized the entry is stable:
resolution for the same pod key returns the cached value and leaves the
map unchanged, a pod event that goes through keeps the binding intact (a
fresh resolution only extends the map, and a hit does not write), and
node and service events never touch the memoization map at all — so no
modeled operation ever evicts or overwrites the entry. -/
theorem memo_entry_stable (st : Stores) (fuel : Nat) (memo : Memo)
    (p : Pod) (w : Workload)
    (h : memoGet memo (podRef p) = some w) :
    resolve_pod_descriptor st fuel memo p = some (w, memo)
    ∧ (∀ s p2 s2, s.pod_descriptors = memo →
        applyPodEvent st fuel s p2 = some s2 →
        memoGet s2.pod_descriptors (podRef p) = some w)
    ∧ (∀ s node, (applyNodeEvent s node).pod_descriptors
        = s.pod_descriptors)
    ∧ (∀ s svc, (applyServiceEvent s svc).pod_descriptors
        = s.pod_descriptors) := by
  refine ⟨?_, ?_, applyNode_memo, applyService_memo⟩
  · unfold resolve_pod_descriptor
    rw [h]
  · intro s p2 s2 hs h2
    exact applyPod_memo_pres st fuel s p2 s2 h2 (podRef p) w
      (by rw [hs]; exact h)

theorem memo_entry_stable_witness :
    resolve_pod_descriptor emptyStores 3
      (memoInsert [] (podRef memoPod) ⟨"m", "d", "Pod"⟩) memoPod
      = some (⟨"m", "d", "Pod"⟩,
              memoInsert [] (podRef memoPod) ⟨"m", "d", "Pod"⟩) :=
  (memo_entry_stable emptyStores 3
    (memoInsert [] (podRef memoPod) ⟨"m", "d", "Pod"⟩) memoPod
    ⟨"m", "d", "Pod"⟩ (by decide)).1

/-- Claim C8, counterexample.  The claim says no entry of the index ever
has key `"None"`.  Pod events insert reported pod IP strings verbatim, so
applying the event for a pod whose reported IP is the literal string
`"None"` creates exactly such an entry. -/
theorem pod_event_inserts_none_key :
    (applyPodEvent emptyStores 8 emptyCState nonePod).map
      (fun s => lookup_ip s "None")
      = some (some ⟨"c8p", "d", "Pod"⟩) := by
  decide

/-- Claim C8, amended.  Service events never contribute an index entry
with key `"None"`: applying any service event leaves the binding of the
key `"None"` exactly as it was (the literal `"None"` in `clusterIPs` is
skipped, and every other cluster IP is a different key).  Pod and node
events, however, insert their address strings verbatim, so the global
no-`"None"` invariant does not hold for them. -/
theorem service_event_never_inserts_none_key (s : CState)
    (svc : Service) :
    lookup_ip (applyServiceEvent s svc) "None" = lookup_ip s "None" := by
  unfold lookup_ip
  cases hsp : svc.spec with
  | none => simp [applyServiceEvent, hsp]
  | some spec =>
    cases hips : spec.cluster_ips with
    | none => simp [applyServiceEvent, hsp, hips]
    | some cluster_ips =>
      simp only [applyServiceEvent, hsp, hips]
      exact serviceIpFold_no_none _ cluster_ips s.ip_to_workload

/-- Claim C9, counterexample.  The claim says an address string that
parses as neither IPv4 nor IPv6 is never inserted.  Applying the event for
a pod whose reported IP is the string `"not-an-ip"` — which no IPv4 or
IPv6 textual form matches — inserts it into the index verbatim. -/
theorem non_ip_string_inserted :
    (applyPodEvent emptyStores 8 emptyCState badIpPod).map
      (fun s => lookup_ip s "not-an-ip")
      = some (some ⟨"c9p", "d", "Pod"⟩) := by
  decide

/-- Claim C9, amended.  No pod, node, or service event validates address
strings as IPs: every reported pod IP string is inserted into the index
verbatim, every node address string is inserted verbatim mapped to the
node's workload, and every service cluster IP other than the literal
`"None"` is inserted verbatim mapped to the service's workload; the only
skips are a pod IPs entry whose `ip` field is absent and the service
literal `"None"`, and no address content makes an event fail. -/
theorem addresses_inserted_without_validation :
    (∀ st fuel s p s2 status pips ip,
      applyPodEvent st fuel s p = some s2 → p.status = some status →
      status.pod_ips = some pips → PodIP.mk (some ip) ∈ pips →
      ∃ w, lookup_ip s2 ip = some w)
    ∧ (∀ s node status addrs (a : NodeAddress),
        Node.status node = some status → status.addresses = some addrs →
        a ∈ addrs →
        lookup_ip (applyNodeEvent s node) a.address
          = some ⟨node.name_any, "node", "Node"⟩)
    ∧ (∀ s svc spec ips ip,
        Service.spec svc = some spec → spec.cluster_ips = some ips →
        ip ∈ ips → ip ≠ "None" →
        lookup_ip (applyServiceEvent s svc) ip
          = some (serviceWorkload svc)) := by
  refine ⟨?_, ?_, ?_⟩
  · intro st fuel s p s2 status pips ip h hst hips hmem
    exact applyPod_ip_present st fuel s p s2 status pips ip h hst hips hmem
  · intro s node status addrs a hst haddr hmem
    exact applyNode_ip s node status addrs a hst haddr hmem
  · intro s svc spec ips ip hsp hips hmem hne
    exact applyService_ip s svc spec ips ip hsp hips hmem hne

theorem addresses_inserted_without_validation_witness :
    (∃ w, lookup_ip
      ((applyPodEvent emptyStores 8 emptyCState badIpPod).getD emptyCState)
      "not-an-ip" = some w)
    ∧ lookup_ip (applyNodeEvent emptyCState workerNode) "192.168.1.7"
        = some ⟨"worker-1", "node", "Node"⟩
    ∧ lookup_ip (applyServiceEvent emptyCState apiService) "10.1.0.10"
        = some (serviceWorkload apiService) := by
  refine ⟨?_, ?_, ?_⟩
  · exact addresses_inserted_without_validation.1 emptyStores 8
      emptyCState badIpPod
      ((applyPodEvent emptyStores 8 emptyCState badIpPod).getD emptyCState)
      ⟨some [⟨some "not-an-ip"⟩]⟩ [⟨some "not-an-ip"⟩] "not-an-ip"
      (by decide) (by decide) (by decide) (by decide)
  · exact addresses_inserted_without_validation.2.1 emptyCState workerNode
      ⟨some [⟨"192.168.1.7"⟩]⟩ [⟨"192.168.1.7"⟩] ⟨"192.168.1.7"⟩
      (by decide) (by decide) (by decide)
  · exact addresses_inserted_without_validation.2.2 emptyCState apiService
      ⟨some ["10.1.0.10", "None"]⟩ ["10.1.0.10", "None"] "10.1.0.10"
      (by decide) (by decide) (by decide) (by decide)

/-- Claim C10.  The parse applied to each cluster IP string in the service
watcher is inferred at type `String`, whose parse is the identity and
whose error type is uninhabited, so the parse-error branch is unreachable;
consequently every cluster IP string other than the literal `"None"` is
inserted into the index verbatim, with no IP-format validation. -/
theorem service_parse_identity_inserts_verbatim :
    (∀ s : String, string_from_str s = Except.ok s)
    ∧ (∀ s svc spec ips ip,
        Service.spec svc = some spec → spec.cluster_ips = some ips →
        ip ∈ ips → ip ≠ "None" →
        lookup_ip (applyServiceEvent s svc) ip
          = some (serviceWorkload svc)) := by
  refine ⟨fun s => rfl, ?_⟩
  intro s svc spec ips ip hsp hips hmem hne
  exact applyService_ip s svc spec ips ip hsp hips hmem hne

theorem service_parse_identity_inserts_verbatim_witness :
    string_from_str "10.1.0.10" = Except.ok "10.1.0.10"
    ∧ lookup_ip (applyServiceEvent emptyCState apiService) "10.1.0.10"
        = some (serviceWorkload apiService) := by
  refine ⟨service_parse_identity_inserts_verbatim.1 "10.1.0.10", ?_⟩
  exact service_parse_identity_inserts_verbatim.2 emptyCState apiService
    ⟨some ["10.1.0.10", "None"]⟩ ["10.1.0.10", "None"] "10.1.0.10"
    (by decide) (by decide) (by decide) (by decide)
